import Mathlib

/-!
Shallow embedding of the interactive process session manager of
`src/dist/tools/interactive.js` (Auralis Commander), together with proofs
about its session store, output buffer, and lifecycle operations.

Modelling conventions:
* JS arrays of lines become `List String`; `Array.prototype.slice(n)` is
  `List.drop n`, `slice(-k)` is `List.drop (len - k)`, `join('\n')` is
  `String.intercalate "\n"`.
* The JS `Map` keyed by session id becomes an association list
  `List (String × Session)` with `Map`-faithful get/set/delete (set
  replaces in place when the key exists, otherwise appends).
* A Node child-process handle is reduced to the two fields the code
  consults: `killed` (set to `true` once a signal has been successfully
  sent via `kill()`, per Node semantics; it never indicates exit) and
  `exitCode` (`none` while the process has not exited).
* Wall-clock time is discretised: `read`'s poll loop runs at ticks of
  100 ms, and the asynchronous parts of `start` (the 500 ms settle
  timeout, the `error` event, output arrival, exit) become explicit
  events of a step machine, so that interleavings of concurrent calls
  are sequences of atomic events.
-/

/-- `MAX_SESSIONS` from interactive.js line 12. -/
def MAX_SESSIONS : Nat := 10

/-- `MAX_OUTPUT_LINES` from interactive.js line 13. -/
def MAX_OUTPUT_LINES : Nat := 1000

/-- Structured error produced by `createError` (utils/errors.js): an
`error: true` record with a code, a message and optional details. -/
structure TErr where
  code : String
  message : String
  details : Option String := none
deriving DecidableEq, Repr

/-- `createError(code, message, details)` from utils/errors.js. -/
def createError (code message : String) (details : Option String) : TErr :=
  ⟨code, message, details⟩

/-- Split a character stream at `'\n'`, JS `String.prototype.split('\n')`
semantics: the empty string yields `[""]`, a trailing separator yields a
trailing empty piece. Structural recursion so that it evaluates in the
kernel. -/
def splitLinesAux : List Char → List Char → List String
  | [], acc => [String.mk acc.reverse]
  | c :: cs, acc =>
    if c = '\n' then String.mk acc.reverse :: splitLinesAux cs []
    else splitLinesAux cs (c :: acc)

/-- `data.split('\n')` as used by `addOutput` (interactive.js line 59). -/
def splitLines (data : String) : List String :=
  splitLinesAux data.toList []

/-- `lines.join('\n')` as used when returning buffered output. -/
def render (lines : List String) : String :=
  String.intercalate "\n" lines

/-- `addOutput` (interactive.js lines 58-65): append the split lines of a
data chunk to the session's output buffer, then trim to the last
`MAX_OUTPUT_LINES` lines when the buffer exceeds the cap
(`output.slice(-MAX_OUTPUT_LINES)`). -/
def addOutput (output : List String) (data : String) : List String :=
  let out := output ++ splitLines data
  if out.length > MAX_OUTPUT_LINES then out.drop (out.length - MAX_OUTPUT_LINES)
  else out

/-- `session.output.slice(mark)` — the delta of the buffer past a
recorded mark, as taken by `writeToProcess` (line 114) and
`readFromProcess` (line 136). -/
def sliceFrom (output : List String) (mark : Nat) : List String :=
  output.drop mark

/-- Apply a sequence of arriving data chunks to the buffer, each via
`addOutput` (the stdout/stderr `data` handlers fire once per chunk). -/
def applyChunks (output : List String) (datas : List String) : List String :=
  datas.foldl addOutput output

/-- The deltas observed by a sequence of back-to-back mark/slice calls:
call `j` records `mark = buffer.length`, the chunks of batch `j` arrive,
and the call returns `sliceFrom buffer' mark`. -/
def deltas : List String → List (List String) → List (List String)
  | _, [] => []
  | s, b :: bs => sliceFrom (applyChunks s b) s.length :: deltas (applyChunks s b) bs

/-- The buffer after all batches of chunks have arrived. -/
def finalBuf (s : List String) (bs : List (List String)) : List String :=
  bs.foldl applyChunks s

/-- The two fields of a Node child-process handle that interactive.js
consults. `killed` is set once `kill()` has successfully sent a signal
(it does not mean the process exited); `exitCode` is `none` until exit. -/
structure ProcHandle where
  killed : Bool
  exitCode : Option Int
deriving DecidableEq, Repr

/-- `session.process.exitCode === null && !session.process.killed` —
the recomputed running state (lines 118, 138, 189). -/
def isRunningProc (p : ProcHandle) : Bool :=
  p.exitCode.isNone && !p.killed

/-- `session.process.killed || session.process.exitCode !== null` — the
death check used by the cleanup sweep (line 18), `start`'s settle check
(line 75) and `write`'s liveness check (line 98). -/
def procDead (p : ProcHandle) : Bool :=
  p.killed || p.exitCode.isSome

/-- A session record (interactive.js lines 50-56): process handle, output
buffer, and provenance. The wall-clock `started` timestamp is abstracted
to a `Nat`. -/
structure Session where
  process : ProcHandle
  output : List String
  started : Nat
  command : String
  cwd : String
deriving DecidableEq, Repr

/-- The session object built by `startProcess` (lines 50-56): fresh
handle, empty buffer. The start timestamp is abstracted to 0 and the
working directory is recorded as given (path normalisation is an
external collaborator). -/
def newSession (command cwd : String) : Session :=
  { process := ⟨false, none⟩, output := [], started := 0,
    command := command, cwd := cwd }

/-- The session store: the module-level `sessions` Map (line 11),
modelled as an insertion-ordered association list with unique keys. -/
abbrev Store : Type := List (String × Session)

/-- `sessions.get(id)`. -/
def mapGet (m : Store) (k : String) : Option Session :=
  (List.find? (fun q => q.1 == k) m).map (fun q => q.2)

/-- `sessions.set(id, s)`: replace in place when the key is present,
otherwise append (JS `Map` insertion-order semantics). -/
def mapSet (m : Store) (k : String) (v : Session) : Store :=
  if (List.find? (fun q => q.1 == k) m).isSome then
    m.map (fun q => if q.1 == k then (k, v) else q)
  else m ++ [(k, v)]

/-- `sessions.delete(id)`. -/
def mapDelete (m : Store) (k : String) : Store :=
  m.filter (fun q => !(q.1 == k))

/-- Lower-case hex digits. -/
def hexDigits : List Char := "0123456789abcdef".toList

/-- One byte as two lower-case hex characters. -/
def byteToHex (b : Nat) : String :=
  String.mk [hexDigits.getD (b / 16 % 16) '0', hexDigits.getD (b % 16) '0']

/-- `generateSessionId` (lines 26-28): `randomBytes(4).toString('hex')`.
The randomness source is an explicit input (the four drawn bytes); the
id depends on nothing else — in particular not on the store. -/
def generateSessionId (bytes : List Nat) : String :=
  String.join (bytes.map byteToHex)

/-- Synchronous part of `writeToProcess` (interactive.js lines 93-121):
look the session up; `SESSION_NOT_FOUND` when absent; when the process
is dead, delete the session and fail `PROCESS_DIED` with the final
output as details; otherwise record the mark (`outputBefore`, line 105)
and write `input` to the process's stdin. The stdin write callback's
error is environment-supplied: `writeFails = some msg` models a failed
write (`WRITE_ERROR`), `none` a successful one, in which case the call
returns the recorded mark and the input that was written. -/
def writeStep (store : Store) (sessionId input : String)
    (writeFails : Option String) : Store × Except TErr (Nat × String) :=
  match mapGet store sessionId with
  | none =>
    (store, .error (createError "SESSION_NOT_FOUND"
      ("Session " ++ sessionId ++ " not found") none))
  | some session =>
    if procDead session.process then
      (mapDelete store sessionId,
       .error (createError "PROCESS_DIED" "Process is no longer running"
         (some (render session.output))))
    else
      match writeFails with
      | some msg =>
        (store, .error (createError "WRITE_ERROR" ("Failed to write: " ++ msg) none))
      | none => (store, .ok (session.output.length, input))

/-- Result returned to the caller by `write`/`read`: the rendered output
delta and the recomputed running state. -/
structure DeltaRes where
  output : String
  is_running : Bool
deriving DecidableEq, Repr

/-- The 300 ms settle callback of `writeToProcess` (lines 113-120): given
the session's state at that moment, return the buffer delta past the
mark and the recomputed running state. -/
def writeFinish (mark : Nat) (s : Session) : DeltaRes :=
  ⟨render (sliceFrom s.output mark), isRunningProc s.process⟩

/-- Synchronous part of `readFromProcess` (lines 127-132): look the
session up; `SESSION_NOT_FOUND` when absent; otherwise record the mark
`outputBefore`. The store is never mutated. -/
def readInit (store : Store) (sessionId : String) : Store × Except TErr Nat :=
  match mapGet store sessionId with
  | none =>
    (store, .error (createError "SESSION_NOT_FOUND"
      ("Session " ++ sessionId ++ " not found") none))
  | some session => (store, .ok session.output.length)

/-- The resolution condition of `checkOutput` (line 140):
`newOutput.length > 0 || !isRunning || elapsed >= timeoutMs`, at poll
tick `k` (one tick per 100 ms, so `elapsed = 100 * k`). -/
def readStopCond (σ : Nat → Session) (mark timeoutMs k : Nat) : Bool :=
  decide (0 < (sliceFrom (σ k).output mark).length)
    || !(isRunningProc (σ k).process)
    || decide (timeoutMs ≤ 100 * k)

/-- The poll loop `checkOutput` of `readFromProcess` (lines 135-151),
over a discrete timeline `σ` giving the session's state at poll tick `k`.
Returns the tick at which the loop resolved together with the result;
fuel makes the recursion structural (the caller supplies enough for the
timeout check to fire). -/
def readPoll (σ : Nat → Session) (mark timeoutMs : Nat) :
    Nat → Nat → Option (Nat × DeltaRes)
  | 0, _ => none
  | fuel + 1, k =>
    if readStopCond σ mark timeoutMs k then
      some (k, ⟨render (sliceFrom (σ k).output mark), isRunningProc (σ k).process⟩)
    else readPoll σ mark timeoutMs fuel (k + 1)

/-- `readFromProcess` after a successful lookup: record the mark (the
buffer length at tick 0) and run the poll loop. Fuel `timeoutMs / 100 + 2`
suffices for the `elapsed >= timeoutMs` branch to fire. -/
def readFromProcess (σ : Nat → Session) (timeoutMs : Nat) :
    Option (Nat × DeltaRes) :=
  readPoll σ (σ 0).output.length timeoutMs (timeoutMs / 100 + 2) 0

/-- `kill`'s graceful-termination guard (line 163):
`!session.process.killed && session.process.exitCode === null`. -/
def killGraceBranch (s : Session) : Bool :=
  !s.process.killed && s.process.exitCode.isNone

/-- The effect of a successful `child.kill(signal)` on the handle: Node
sets `killed` to `true` once a signal has been successfully sent,
whether or not the process reacts to it. -/
def procSendSignal (p : ProcHandle) : ProcHandle :=
  { p with killed := true }

/-- The escalation check run by `kill`'s 1000 ms timer (line 167):
SIGKILL is sent iff `!session.process.killed` at that moment. -/
def killEscalates (p : ProcHandle) : Bool :=
  !p.killed

/-- Payload returned by a successful `kill`. -/
structure KillRes where
  session_id : String
  output : String
  is_running : Bool
deriving DecidableEq, Repr

/-- `killProcess` (lines 157-178): `SESSION_NOT_FOUND` when absent;
otherwise capture the final output, (when the grace branch applies, send
SIGTERM and schedule the escalation timer — modelled by
`killGraceBranch`/`procSendSignal`/`killEscalates`), delete the session
from the store, and return the final output with `is_running: false`. -/
def killProcess (store : Store) (sessionId : String) :
    Store × Except TErr KillRes :=
  match mapGet store sessionId with
  | none =>
    (store, .error (createError "SESSION_NOT_FOUND"
      ("Session " ++ sessionId ++ " not found") none))
  | some session =>
    (mapDelete store sessionId,
     .ok ⟨sessionId, render session.output, false⟩)

/-- One entry of `listSessions`' response (lines 185-191). -/
structure SessionInfo where
  session_id : String
  command : String
  started : Nat
  is_running : Bool
  output_lines : Nat
deriving DecidableEq, Repr

/-- `listSessions` (lines 182-194): a pure snapshot of the registrants,
running state recomputed per entry; the store is not mutated. -/
def listSessions (store : Store) : List SessionInfo :=
  store.map (fun q =>
    ⟨q.1, q.2.command, q.2.started, isRunningProc q.2.process, q.2.output.length⟩)

/-- Outcome of one `startProcess` call (lines 32-89). -/
inductive StartRes
  | limitExceeded
  | processError
  | processDied (output : String)
  | ok (sessionId : String) (output : String)
deriving DecidableEq, Repr

/-- An in-flight `startProcess` call that has passed the capacity check
and spawned, but whose 500 ms settle timeout has not yet fired. `sid` is
the id drawn at call time (line 38), `session` the session object whose
buffer the data handlers fill, `resolved` the first value passed to
`resolve` (a promise resolves only once; later calls are no-ops). -/
structure PendingStart where
  sid : String
  session : Session
  resolved : Option StartRes
deriving DecidableEq, Repr

/-- Global state of the manager: the `sessions` store, the in-flight
`start` calls (keyed by an abstract request id), and the results already
delivered to callers, in delivery order. -/
structure MState where
  store : Store
  pending : List (Nat × PendingStart)
  completed : List (Nat × StartRes)
deriving DecidableEq, Repr

/-- The empty initial state. -/
def mstate0 : MState := ⟨[], [], []⟩

/-- Atomic events of the manager. `startCheck` is the synchronous prefix
of `startProcess` (capacity check, id draw, spawn); `startSettle` its
500 ms timeout callback; `pendingData`/`pendingExit`/`spawnError` are
the child-process events that can fire during the settle window;
`sessionData`/`sessionExit` the same for registered sessions;
`writeReq`/`killReq` the store-effecting prefixes of `write`/`kill`;
`reap` one run of the 5-minute cleanup sweep (lines 16-22). -/
inductive Ev
  | startCheck (rid : Nat) (command cwd sid : String)
  | pendingData (rid : Nat) (data : String)
  | pendingExit (rid : Nat) (code : Int)
  | spawnError (rid : Nat)
  | startSettle (rid : Nat)
  | sessionData (id data : String)
  | sessionExit (id : String) (code : Int)
  | writeReq (id input : String)
  | killReq (id : String)
  | reap
deriving DecidableEq, Repr

/-- Update the pending entry with the given request id, if present. -/
def updPending (pending : List (Nat × PendingStart)) (rid : Nat)
    (f : PendingStart → PendingStart) : List (Nat × PendingStart) :=
  pending.map (fun q => if q.1 == rid then (q.1, f q.2) else q)

/-- Look up an in-flight start request. -/
def getPending (pending : List (Nat × PendingStart)) (rid : Nat) :
    Option PendingStart :=
  (List.find? (fun q => q.1 == rid) pending).map (fun q => q.2)

/-- Drop an in-flight start request. -/
def removePending (pending : List (Nat × PendingStart)) (rid : Nat) :
    List (Nat × PendingStart) :=
  pending.filter (fun q => !(q.1 == rid))

/-- One atomic step of the manager. Each branch is the corresponding
fragment of interactive.js:
* `startCheck`: lines 32-49 — reject with `LIMIT_EXCEEDED` when
  `sessions.size >= MAX_SESSIONS` (without spawning), else draw the id,
  spawn, and leave the call in flight;
* `pendingData`/`sessionData`: the `addOutput` data handlers
  (lines 58-69);
* `pendingExit`/`sessionExit`: process exit setting `exitCode`;
* `spawnError`: the `error` handler (lines 70-72) resolving
  `PROCESS_ERROR` — it does not cancel the settle timeout;
* `startSettle`: lines 74-87 — if the process is dead, resolve
  `PROCESS_DIED` with the captured output and register nothing;
  otherwise `sessions.set(sessionId, session)` and resolve success
  (either resolve is a no-op if the call already resolved);
* `writeReq`/`killReq`: the store effects of `writeToProcess` /
  `killProcess`;
* `reap`: delete every session whose process is dead (lines 16-22). -/
def stepEv (st : MState) : Ev → MState
  | .startCheck rid command cwd sid =>
    if MAX_SESSIONS ≤ st.store.length then
      { st with completed := st.completed ++ [(rid, .limitExceeded)] }
    else
      { st with pending := st.pending ++ [(rid, ⟨sid, newSession command cwd, none⟩)] }
  | .pendingData rid data =>
    { st with pending := updPending st.pending rid (fun p =>
        { p with session := { p.session with output := addOutput p.session.output data } }) }
  | .pendingExit rid code =>
    { st with pending := updPending st.pending rid (fun p =>
        { p with session := { p.session with
            process := { p.session.process with exitCode := some code } } }) }
  | .spawnError rid =>
    { st with pending := updPending st.pending rid (fun p =>
        { p with resolved := some (p.resolved.getD .processError) }) }
  | .startSettle rid =>
    match getPending st.pending rid with
    | none => st
    | some p =>
      if procDead p.session.process then
        { st with pending := removePending st.pending rid,
                  completed := st.completed ++
                    [(rid, p.resolved.getD (.processDied (render p.session.output)))] }
      else
        { st with pending := removePending st.pending rid,
                  store := mapSet st.store p.sid p.session,
                  completed := st.completed ++
                    [(rid, p.resolved.getD (.ok p.sid (render p.session.output)))] }
  | .sessionData id data =>
    { st with store := st.store.map (fun q =>
        if q.1 == id then (q.1, { q.2 with output := addOutput q.2.output data }) else q) }
  | .sessionExit id code =>
    { st with store := st.store.map (fun q =>
        if q.1 == id then
          (q.1, { q.2 with process := { q.2.process with exitCode := some code } })
        else q) }
  | .writeReq id input => { st with store := (writeStep st.store id input none).1 }
  | .killReq id => { st with store := (killProcess st.store id).1 }
  | .reap => { st with store := st.store.filter (fun q => !(procDead q.2.process)) }

/-- Run a sequence of events. -/
def run (st : MState) (evs : List Ev) : MState :=
  evs.foldl stepEv st

/-- Run a sequence of events under the discipline that a `start` call is
only issued when no other `start` is in flight (each call is awaited
before the next is issued); refuses the trace otherwise. -/
def seqRun : MState → List Ev → Option MState
  | st, [] => some st
  | st, e :: es =>
    match e with
    | .startCheck _ _ _ _ =>
      if st.pending = [] then seqRun (stepEv st e) es else none
    | _ => seqRun (stepEv st e) es

/-- The capacity invariant: registered sessions plus in-flight starts
within the cap. -/
def capInv (st : MState) : Prop :=
  st.store.length + st.pending.length ≤ MAX_SESSIONS

instance (st : MState) : Decidable (capInv st) := by
  unfold capInv; infer_instance

/-- Request parameters of the dispatch layer `processInteractive`
(lines 198-229); absent fields are `none`. -/
structure Params where
  action : String
  command : Option String := none
  cwd : Option String := none
  session_id : Option String := none
  input : Option String := none
  timeout_ms : Option Nat := none
deriving DecidableEq, Repr

/-- JS falsiness of an optional string field: `undefined` and `""` are
falsy (`!command`, `!session_id`). -/
def falsyS : Option String → Bool
  | none => true
  | some s => s == ""

/-- Defunctionalised outcome of the dispatch layer: either a validation
error, or the selected operation with its arguments. -/
inductive Dispatch
  | err (e : TErr)
  | doStart (command : String) (cwd : Option String)
  | doWrite (sessionId input : String)
  | doRead (sessionId : String) (timeoutMs : Nat)
  | doKill (sessionId : String)
  | doList
deriving DecidableEq, Repr

/-- `processInteractive` (lines 198-229): validate the parameters for
the requested action and select the operation. Validation happens before
any store interaction — note the store is not even an input here. `read`
fills in `timeout_ms`'s default of 5000 (the default parameter on
line 127 applies when the field is `undefined`). -/
def processInteractive (p : Params) : Dispatch :=
  match p.action with
  | "start" =>
    if falsyS p.command then
      .err (createError "INVALID_PARAMS" "Command required for start action" none)
    else .doStart (p.command.getD "") p.cwd
  | "write" =>
    if falsyS p.session_id then
      .err (createError "INVALID_PARAMS" "session_id required for write action" none)
    else if p.input = none then
      .err (createError "INVALID_PARAMS" "input required for write action" none)
    else .doWrite (p.session_id.getD "") (p.input.getD "")
  | "read" =>
    if falsyS p.session_id then
      .err (createError "INVALID_PARAMS" "session_id required for read action" none)
    else .doRead (p.session_id.getD "") (p.timeout_ms.getD 5000)
  | "kill" =>
    if falsyS p.session_id then
      .err (createError "INVALID_PARAMS" "session_id required for kill action" none)
    else .doKill (p.session_id.getD "")
  | "list" => .doList
  | a => .err (createError "INVALID_PARAMS" ("Unknown action: " ++ a) none)

/-! ### Concrete inputs used by counterexamples and witnesses -/

/-- Eleven concurrent `start` calls issued against an empty store: all
eleven capacity checks run before any of the eleven 500 ms settle
timeouts fires (the checks are synchronous, the registrations deferred),
then all eleven settle callbacks register. -/
def c1Trace : List Ev :=
  ((List.range 11).map (fun i => Ev.startCheck i "cmd" "wd" ("s" ++ Nat.repr i))) ++
  ((List.range 11).map (fun i => Ev.startSettle i))

/-- A `start` whose spawn fails: the `error` event fires (resolving
`PROCESS_ERROR`) before the settle timeout; the process never ran, so
its handle still shows no exit code and no signal sent. -/
def c7Trace : List Ev := [.startCheck 0 "cmd" "wd" "aabbccdd", .spawnError 0, .startSettle 0]

/-- A pre-existing registrant under id `"deadbeef"`. -/
def sessA : Session := { newSession "cmdA" "wdA" with output := ["hello"] }

/-- A `start` whose randomly drawn id collides with the registered
`"deadbeef"`. -/
def c9Trace : List Ev := [.startCheck 5 "cmdB" "wdB" "deadbeef", .startSettle 5]

/-- A session whose process has already exited (exit code 0) with one
buffered line. -/
def deadSess : Session :=
  { newSession "cmdD" "wdD" with process := ⟨false, some 0⟩, output := ["bye"] }

/-- A live session with one buffered line. -/
def liveSess : Session := { newSession "cmdL" "wdL" with output := ["hi"] }

/-- An output buffer filled to exactly the 1000-line cap. -/
def fullBuf : List String := List.replicate 1000 "old"

/-- A session timeline for `read`: the buffer is at the cap when the
mark is taken (tick 0); one new line arrives during the first poll
interval, evicting the oldest line; the process keeps running. -/
def sigmaC4 : Nat → Session := fun k =>
  if k = 0 then { newSession "c" "w" with output := fullBuf }
  else { newSession "c" "w" with output := addOutput fullBuf "new" }

/-- A store filled to the 10-session cap. -/
def fullStore : Store :=
  (List.range 10).map (fun i => ("f" ++ Nat.repr i, newSession "cmd" "wd"))

/-! ### Buffer lemmas -/

/-- All the lines a sequence of data chunks contributes to the buffer. -/
def chunkLines (datas : List String) : List String :=
  (datas.map splitLines).flatten

/-- `addOutput` in closed form: the new buffer is the old buffer plus
the split lines, with everything but the last `MAX_OUTPUT_LINES` lines
dropped (`Nat` subtraction makes the drop count 0 when under the cap). -/
theorem addOutput_eq_drop (out : List String) (data : String) :
    addOutput out data =
      (out ++ splitLines data).drop
        ((out.length + (splitLines data).length) - MAX_OUTPUT_LINES) := by
  unfold addOutput
  simp only [List.length_append]
  by_cases h : out.length + (splitLines data).length > MAX_OUTPUT_LINES
  · rw [if_pos h]
  · rw [if_neg h]
    have h0 : out.length + (splitLines data).length - MAX_OUTPUT_LINES = 0 := by omega
    rw [h0, List.drop_zero]

/-- The buffer never exceeds the cap after an append. -/
theorem addOutput_length_le (out : List String) (data : String) :
    (addOutput out data).length ≤ MAX_OUTPUT_LINES := by
  rw [addOutput_eq_drop, List.length_drop, List.length_append]
  omega

/-- The post-append buffer is a suffix of the untrimmed buffer: eviction
only drops the oldest lines and never reorders the retained ones. -/
theorem addOutput_suffix (out : List String) (data : String) :
    addOutput out data <:+ (out ++ splitLines data) := by
  rw [addOutput_eq_drop]; exact List.drop_suffix _ _

/-- Below the cap no trimming happens: append is plain concatenation. -/
theorem addOutput_no_trim (out : List String) (data : String)
    (h : out.length + (splitLines data).length ≤ MAX_OUTPUT_LINES) :
    addOutput out data = out ++ splitLines data := by
  rw [addOutput_eq_drop]
  have h0 : out.length + (splitLines data).length - MAX_OUTPUT_LINES = 0 := by omega
  rw [h0, List.drop_zero]

/-- Chunk application below the cap is concatenation of all split lines. -/
theorem applyChunks_no_trim (datas : List String) (out : List String)
    (h : out.length + (chunkLines datas).length ≤ MAX_OUTPUT_LINES) :
    applyChunks out datas = out ++ chunkLines datas := by
  induction datas generalizing out with
  | nil => simp [applyChunks, chunkLines]
  | cons d ds ih =>
    have hlen : (chunkLines (d :: ds)).length =
        (splitLines d).length + (chunkLines ds).length := by
      simp [chunkLines, List.flatten]
    have h1 : out.length + (splitLines d).length ≤ MAX_OUTPUT_LINES := by omega
    have hstep : addOutput out d = out ++ splitLines d := addOutput_no_trim out d h1
    have h2 : (out ++ splitLines d).length + (chunkLines ds).length ≤ MAX_OUTPUT_LINES := by
      rw [List.length_append]; omega
    calc applyChunks out (d :: ds) = applyChunks (addOutput out d) ds := rfl
      _ = (out ++ splitLines d) ++ chunkLines ds := by rw [hstep]; exact ih _ h2
      _ = out ++ chunkLines (d :: ds) := by
          simp [chunkLines, List.flatten, List.append_assoc]

/-- Total lines contributed by a list of batches. -/
def batchLines (batches : List (List String)) : List String :=
  (batches.map chunkLines).flatten

/-- With no eviction, back-to-back deltas are exactly the per-batch
lines: the final buffer is the initial one plus every appended line, and
the deltas concatenate to precisely the appended segment. -/
theorem deltas_no_evict (batches : List (List String)) (init : List String)
    (h : init.length + (batchLines batches).length ≤ MAX_OUTPUT_LINES) :
    finalBuf init batches = init ++ batchLines batches ∧
    (deltas init batches).flatten = batchLines batches ∧
    (deltas init batches).flatten = sliceFrom (finalBuf init batches) init.length := by
  induction batches generalizing init with
  | nil =>
    refine ⟨by simp [finalBuf, batchLines], by simp [deltas, batchLines], ?_⟩
    simp [deltas, finalBuf, batchLines, sliceFrom]
  | cons b bs ih =>
    have hlen : (batchLines (b :: bs)).length =
        (chunkLines b).length + (batchLines bs).length := by
      simp [batchLines, List.flatten]
    have h1 : init.length + (chunkLines b).length ≤ MAX_OUTPUT_LINES := by omega
    have hstep : applyChunks init b = init ++ chunkLines b :=
      applyChunks_no_trim b init h1
    have h2 : (init ++ chunkLines b).length + (batchLines bs).length ≤ MAX_OUTPUT_LINES := by
      rw [List.length_append]; omega
    obtain ⟨ihFin, ihFlat, _⟩ := ih (init ++ chunkLines b) h2
    have hfin : finalBuf init (b :: bs) = init ++ batchLines (b :: bs) := by
      calc finalBuf init (b :: bs) = finalBuf (applyChunks init b) bs := rfl
        _ = (init ++ chunkLines b) ++ batchLines bs := by rw [hstep]; exact ihFin
        _ = init ++ batchLines (b :: bs) := by
            simp [batchLines, List.flatten, List.append_assoc]
    have hdel : deltas init (b :: bs) =
        sliceFrom (applyChunks init b) init.length :: deltas (applyChunks init b) bs := rfl
    have hslice : sliceFrom (init ++ chunkLines b) init.length = chunkLines b := by
      show List.drop init.length (init ++ chunkLines b) = chunkLines b
      exact List.drop_left init (chunkLines b)
    have hflat : (deltas init (b :: bs)).flatten = batchLines (b :: bs) := by
      rw [hdel, hstep, List.flatten_cons, hslice, ihFlat]
      simp [batchLines]
    refine ⟨hfin, hflat, ?_⟩
    rw [hflat, hfin]
    show batchLines (b :: bs) = List.drop init.length (init ++ batchLines (b :: bs))
    rw [List.drop_left]

/-! ### Store and machine lemmas -/

/-- Registering can grow the store by at most one entry. -/
theorem mapSet_length_le (m : Store) (k : String) (v : Session) :
    (mapSet m k v).length ≤ m.length + 1 := by
  unfold mapSet
  by_cases h : (List.find? (fun q => q.1 == k) m).isSome
  · rw [if_pos h, List.length_map]; omega
  · rw [if_neg h, List.length_append]; simp

/-- Registering under an id absent from the store appends the new entry,
leaving every existing registrant in place. -/
theorem mapSet_of_absent (m : Store) (k : String) (v : Session)
    (h : mapGet m k = none) : mapSet m k v = m ++ [(k, v)] := by
  unfold mapSet
  unfold mapGet at h
  have hf : List.find? (fun q => q.1 == k) m = none := by
    cases hc : List.find? (fun q => q.1 == k) m with
    | none => rfl
    | some q => rw [hc] at h; simp at h
  rw [hf]; rfl

/-- Registering under an id already present replaces in place: the store
size does not change (the previous registrant's entry is lost). -/
theorem mapSet_of_present (m : Store) (k : String) (v : Session) (s : Session)
    (h : mapGet m k = some s) : (mapSet m k v).length = m.length := by
  unfold mapSet
  unfold mapGet at h
  have hf : (List.find? (fun q => q.1 == k) m).isSome := by
    cases hc : List.find? (fun q => q.1 == k) m with
    | none => rw [hc] at h; simp at h
    | some q => simp
  rw [if_pos hf, List.length_map]

/-- Deleting never grows the store. -/
theorem mapDelete_length_le (m : Store) (k : String) :
    (mapDelete m k).length ≤ m.length :=
  List.length_filter_le _ m

/-- The store component of `write`'s synchronous part never grows. -/
theorem writeStep_fst_length_le (store : Store) (sessionId input : String)
    (writeFails : Option String) :
    ((writeStep store sessionId input writeFails).1).length ≤ store.length := by
  unfold writeStep
  cases h : mapGet store sessionId with
  | none => simp
  | some s =>
    by_cases hd : procDead s.process
    · simp only [hd, if_pos]
      exact mapDelete_length_le store sessionId
    · simp only [hd, if_neg, not_false_iff]
      cases writeFails <;> simp

/-- The store component of `kill` never grows. -/
theorem killProcess_fst_length_le (store : Store) (sessionId : String) :
    ((killProcess store sessionId).1).length ≤ store.length := by
  unfold killProcess
  cases h : mapGet store sessionId with
  | none => simp
  | some s => exact mapDelete_length_le store sessionId

/-- Updating in-flight starts changes no lengths. -/
theorem updPending_length (p : List (Nat × PendingStart)) (rid : Nat)
    (f : PendingStart → PendingStart) :
    (updPending p rid f).length = p.length :=
  List.length_map p _

/-- Removing an in-flight start that exists strictly shrinks the list. -/
theorem removePending_length_lt (p : List (Nat × PendingStart)) (rid : Nat)
    (x : PendingStart) (h : getPending p rid = some x) :
    (removePending p rid).length < p.length := by
  unfold getPending at h
  unfold removePending
  rw [List.length_filter_lt_length_iff_exists]
  cases hc : List.find? (fun q => q.1 == rid) p with
  | none => rw [hc] at h; simp at h
  | some q =>
    refine ⟨q, List.mem_of_find?_eq_some hc, ?_⟩
    have := List.find?_some hc
    simp [this]

/-- Is an event the synchronous prefix of a `start` call? -/
def isStartCheck : Ev → Prop
  | .startCheck _ _ _ _ => True
  | _ => False

instance : ∀ e, Decidable (isStartCheck e) := by
  intro e; cases e <;> (unfold isStartCheck; infer_instance)

/-- The invariant is insensitive to the `completed` log. -/
theorem capInv_completed (st : MState) (c : List (Nat × StartRes))
    (h : capInv st) : capInv { st with completed := c } := h

/-- The invariant survives updating in-flight starts in place. -/
theorem capInv_updPending (st : MState) (rid : Nat) (f : PendingStart → PendingStart)
    (h : capInv st) : capInv { st with pending := updPending st.pending rid f } := by
  unfold capInv at *
  simpa [updPending_length] using h

/-- The invariant survives replacing the store by one no larger. -/
theorem capInv_storeLe (st : MState) (s : Store)
    (hs : s.length ≤ st.store.length) (h : capInv st) :
    capInv { st with store := s } := by
  unfold capInv at *
  simp only []
  omega

/-- One step preserves the capacity invariant, provided a `start` is
only issued when no other `start` is in flight. -/
theorem stepEv_capInv (st : MState) (e : Ev)
    (hinv : capInv st) (hseq : isStartCheck e → st.pending = []) :
    capInv (stepEv st e) := by
  cases e with
  | startCheck rid c w sid =>
    have hp : st.pending = [] := hseq trivial
    by_cases h : MAX_SESSIONS ≤ st.store.length
    · show capInv (if MAX_SESSIONS ≤ st.store.length then _ else _)
      rw [if_pos h]
      exact capInv_completed st _ hinv
    · show capInv (if MAX_SESSIONS ≤ st.store.length then _ else _)
      rw [if_neg h]
      unfold capInv at *
      simp only [List.length_append, List.length_cons, hp, List.length_nil]
      omega
  | pendingData rid data => exact capInv_updPending st rid _ hinv
  | pendingExit rid code => exact capInv_updPending st rid _ hinv
  | spawnError rid => exact capInv_updPending st rid _ hinv
  | startSettle rid =>
    show capInv (match getPending st.pending rid with | none => _ | some p => _)
    cases hg : getPending st.pending rid with
    | none => exact hinv
    | some p =>
      have hlt := removePending_length_lt st.pending rid p hg
      have hms := mapSet_length_le st.store p.sid p.session
      show capInv (if procDead p.session.process = true
        then MState.mk st.store (removePending st.pending rid)
          (st.completed ++ [(rid, p.resolved.getD (StartRes.processDied (render p.session.output)))])
        else MState.mk (mapSet st.store p.sid p.session) (removePending st.pending rid)
          (st.completed ++ [(rid, p.resolved.getD (StartRes.ok p.sid (render p.session.output)))]))
      by_cases hd : procDead p.session.process = true
      · rw [if_pos hd]
        unfold capInv at *
        simp only []
        omega
      · rw [if_neg hd]
        unfold capInv at *
        simp only []
        omega
  | sessionData id data =>
    exact capInv_storeLe st _ (by rw [List.length_map]) hinv
  | sessionExit id code =>
    exact capInv_storeLe st _ (by rw [List.length_map]) hinv
  | writeReq id input =>
    exact capInv_storeLe st _ (writeStep_fst_length_le st.store id input none) hinv
  | killReq id =>
    exact capInv_storeLe st _ (killProcess_fst_length_le st.store id) hinv
  | reap =>
    exact capInv_storeLe st _ (List.length_filter_le _ st.store) hinv

/-- Along any awaited-start trace the capacity invariant is preserved. -/
theorem seqRun_capInv (evs : List Ev) (st st' : MState)
    (hrun : seqRun st evs = some st') (hinv : capInv st) : capInv st' := by
  induction evs generalizing st with
  | nil => unfold seqRun at hrun; cases hrun; exact hinv
  | cons e es ih =>
    cases e with
    | startCheck rid c w sid =>
      unfold seqRun at hrun
      by_cases hp : st.pending = []
      · rw [if_pos hp] at hrun
        exact ih _ hrun (stepEv_capInv st _ hinv (fun _ => hp))
      · rw [if_neg hp] at hrun; cases hrun
    | pendingData rid data =>
      exact ih _ hrun (stepEv_capInv st _ hinv (fun hc => absurd hc not_false))
    | pendingExit rid code =>
      exact ih _ hrun (stepEv_capInv st _ hinv (fun hc => absurd hc not_false))
    | spawnError rid =>
      exact ih _ hrun (stepEv_capInv st _ hinv (fun hc => absurd hc not_false))
    | startSettle rid =>
      exact ih _ hrun (stepEv_capInv st _ hinv (fun hc => absurd hc not_false))
    | sessionData id data =>
      exact ih _ hrun (stepEv_capInv st _ hinv (fun hc => absurd hc not_false))
    | sessionExit id code =>
      exact ih _ hrun (stepEv_capInv st _ hinv (fun hc => absurd hc not_false))
    | writeReq id input =>
      exact ih _ hrun (stepEv_capInv st _ hinv (fun hc => absurd hc not_false))
    | killReq id =>
      exact ih _ hrun (stepEv_capInv st _ hinv (fun hc => absurd hc not_false))
    | reap =>
      exact ih _ hrun (stepEv_capInv st _ hinv (fun hc => absurd hc not_false))

/-! ### Read-loop lemmas -/

/-- With enough fuel for the timeout disjunct to fire, the poll loop
resolves at the first tick (at or after its starting tick) satisfying
the resolution condition, returning the buffer delta past the mark and
the running state both recomputed at that tick. -/
theorem readPoll_resolves (σ : Nat → Session) (mark timeoutMs : Nat) :
    ∀ (fuel k : Nat), timeoutMs ≤ 100 * (k + fuel) →
    ∃ j, k ≤ j ∧
      readPoll σ mark timeoutMs (fuel + 1) k =
        some (j, ⟨render (sliceFrom (σ j).output mark), isRunningProc (σ j).process⟩) ∧
      readStopCond σ mark timeoutMs j = true ∧
      ∀ i, k ≤ i → i < j → readStopCond σ mark timeoutMs i = false := by
  intro fuel
  induction fuel with
  | zero =>
    intro k hk
    have hstop : readStopCond σ mark timeoutMs k = true := by
      unfold readStopCond
      have : decide (timeoutMs ≤ 100 * k) = true := by
        simp only [decide_eq_true_eq]; omega
      simp [this]
    refine ⟨k, le_refl k, ?_, hstop, ?_⟩
    · unfold readPoll
      rw [hstop]
      simp
    · intro i h1 h2; omega
  | succ fuel ih =>
    intro k hk
    by_cases hstop : readStopCond σ mark timeoutMs k = true
    · refine ⟨k, le_refl k, ?_, hstop, ?_⟩
      · unfold readPoll
        rw [hstop]
        simp
      · intro i h1 h2; omega
    · have hk' : timeoutMs ≤ 100 * ((k + 1) + fuel) := by omega
      obtain ⟨j, hj1, hj2, hj3, hj4⟩ := ih (k + 1) hk'
      refine ⟨j, by omega, ?_, hj3, ?_⟩
      · unfold readPoll
        rw [Bool.of_not_eq_true hstop]
        simpa using hj2
      · intro i h1 h2
        rcases Nat.eq_or_lt_of_le h1 with he | hlt
        · rw [← he]; exact Bool.of_not_eq_true hstop
        · exact hj4 i hlt h2

/-- Reduction of the settle step once the in-flight request is found. -/
theorem settle_reduce (st : MState) (rid : Nat) (p : PendingStart)
    (hg : getPending st.pending rid = some p) :
    stepEv st (.startSettle rid) =
      if procDead p.session.process = true
      then MState.mk st.store (removePending st.pending rid)
        (st.completed ++ [(rid, p.resolved.getD (.processDied (render p.session.output)))])
      else MState.mk (mapSet st.store p.sid p.session) (removePending st.pending rid)
        (st.completed ++ [(rid, p.resolved.getD (.ok p.sid (render p.session.output)))]) := by
  simp only [stepEv]
  rw [hg]

/-! ### Claim C5 -/

/-- C5: after every append the output buffer holds at most
`MAX_OUTPUT_LINES` (1000) lines; an append that would exceed the cap
drops exactly the oldest lines (the post-append buffer is the suffix of
the untrimmed buffer obtained by dropping the overflow), so the relative
order of the retained lines is unchanged; `addOutput` is a total
function, so appends never block and never error. -/
theorem c5_buffer_capacity_fifo (out : List String) (data : String) :
    (addOutput out data).length ≤ MAX_OUTPUT_LINES ∧
    addOutput out data =
      (out ++ splitLines data).drop
        ((out.length + (splitLines data).length) - MAX_OUTPUT_LINES) ∧
    addOutput out data <:+ (out ++ splitLines data) :=
  ⟨addOutput_length_le out data, addOutput_eq_drop out data, addOutput_suffix out data⟩

/-! ### Claim C2 -/

/-- C2 (counterexample): with the buffer already at the 1000-line cap
when the mark is taken, appending the line `"new"` evicts the oldest
`"old"` line, and the observed delta `slice(mark)` is empty — the
appended line `"new"` is in the buffer (it was never evicted) yet is
absent from every delta, so concatenating the deltas does not
reconstruct a prefix of the output stream even modulo eviction of the
oldest lines. -/
theorem c2_delta_misses_lines_counterexample :
    fullBuf.length = MAX_OUTPUT_LINES ∧
    deltas fullBuf [["new"]] = [[]] ∧
    finalBuf fullBuf [["new"]] = List.replicate 999 "old" ++ ["new"] ∧
    "new" ∈ finalBuf fullBuf [["new"]] ∧
    "new" ∉ (deltas fullBuf [["new"]]).flatten := by
  set_option maxRecDepth 100000 in decide

/-- C2 (amended): as long as no FIFO eviction intervenes (the initial
buffer plus every appended line fits within the 1000-line cap), the
deltas observed by successive back-to-back mark/slice calls are
pairwise disjoint and order-preserving: their concatenation equals
exactly the sequence of lines appended after the first mark, which is
the suffix of the final buffer past the initial mark — a contiguous
segment of the true merged output stream. When eviction intervenes,
appended lines can be missing from every delta. -/
theorem c2_deltas_reconstruct_no_eviction (init : List String)
    (batches : List (List String))
    (h : init.length + (batchLines batches).length ≤ MAX_OUTPUT_LINES) :
    (deltas init batches).flatten = batchLines batches ∧
    finalBuf init batches = init ++ batchLines batches ∧
    (deltas init batches).flatten = sliceFrom (finalBuf init batches) init.length := by
  obtain ⟨a, b, c⟩ := deltas_no_evict batches init h
  exact ⟨b, a, c⟩

/-- Witness: a two-call run over a small buffer — the deltas
`["b", "c"]` and `["d"]` concatenate to exactly the appended lines. -/
theorem c2_deltas_reconstruct_no_eviction_witness :
    (["a"].length + (batchLines [["b\nc"], ["d"]]).length ≤ MAX_OUTPUT_LINES) ∧
    (deltas ["a"] [["b\nc"], ["d"]]).flatten = batchLines [["b\nc"], ["d"]] ∧
    deltas ["a"] [["b\nc"], ["d"]] = [["b", "c"], ["d"]] :=
  ⟨by decide,
   (c2_deltas_reconstruct_no_eviction ["a"] [["b\nc"], ["d"]] (by decide)).1,
   by decide⟩

/-! ### Claim C1 -/

/-- C1 (counterexample): eleven concurrent `start` calls against an
empty store all pass the `sessions.size >= MAX_SESSIONS` check before
any of their 500 ms settle timeouts registers a session (the check and
the registration are not atomic), so the store ends up holding 11
sessions — the 10-session bound is overshot and the overshoot persists. -/
theorem c1_concurrent_starts_overshoot :
    MAX_SESSIONS = 10 ∧ (run mstate0 c1Trace).store.length = 11 := by decide

/-- C1 (amended): a `start` issued while the store holds at least
`MAX_SESSIONS` sessions returns `LIMIT_EXCEEDED` without spawning a
process or touching the store or the in-flight list; and when every
`start` is awaited before the next is issued (no two capacity checks
ever straddle a pending registration), the store plus in-flight count
never exceeds `MAX_SESSIONS` along any event sequence; overlapping
starts carry no such guarantee. -/
theorem c1_cap_enforced_sequentially :
    (∀ st rid c w sid, MAX_SESSIONS ≤ st.store.length →
      stepEv st (.startCheck rid c w sid) =
        MState.mk st.store st.pending (st.completed ++ [(rid, .limitExceeded)])) ∧
    (∀ evs st st', seqRun st evs = some st' → capInv st → capInv st') := by
  constructor
  · intro st rid c w sid h
    simp only [stepEv]
    rw [if_pos h]
  · intro evs st st' hrun hinv
    exact seqRun_capInv evs st st' hrun hinv

/-- Witness: a full store rejects a 12th `start` with `LIMIT_EXCEEDED`
and is left untouched; an awaited start-then-settle run from the empty
state stays within the cap. -/
theorem c1_cap_enforced_sequentially_witness :
    stepEv (MState.mk fullStore [] []) (.startCheck 11 "c" "w" "zz") =
      MState.mk fullStore [] [(11, .limitExceeded)] ∧
    capInv (MState.mk [("aa", newSession "c" "w")] [] [(0, StartRes.ok "aa" "")]) :=
  ⟨(c1_cap_enforced_sequentially.1 (MState.mk fullStore [] []) 11 "c" "w" "zz"
      (by decide)).trans (by decide),
   c1_cap_enforced_sequentially.2 [Ev.startCheck 0 "c" "w" "aa", Ev.startSettle 0]
     mstate0 (MState.mk [("aa", newSession "c" "w")] [] [(0, StartRes.ok "aa" "")])
     (by decide) (by decide)⟩

/-! ### Claim C3 -/

/-- C3 (counterexample): `write` on a registered session whose process
has already exited does remove the session from the Store (line 99
`sessions.delete(sessionId)`): after the call the store is empty. -/
theorem c3_write_removes_dead_session :
    mapGet [("x", deadSess)] "x" = some deadSess ∧
    procDead deadSess.process = true ∧
    (writeStep [("x", deadSess)] "x" "hi" none).1 = [] := by decide

/-- C3 (amended): a session is removed from the Store only by `kill`,
by the Reaper, or by `write` observing that its process has already
exited (the `PROCESS_DIED` path); `read` and `list` never mutate the
Store, and `write` on a live session leaves the Store unchanged. -/
theorem c3_removal_paths :
    (∀ store id, (readInit store id).1 = store) ∧
    (∀ store, (listSessions store).length = store.length) ∧
    (∀ store id input wf s, mapGet store id = some s →
      procDead s.process = false → (writeStep store id input wf).1 = store) ∧
    (∀ store id input wf s, mapGet store id = some s →
      procDead s.process = true → (writeStep store id input wf).1 = mapDelete store id) ∧
    (∀ store id s, mapGet store id = some s →
      (killProcess store id).1 = mapDelete store id) := by
  refine ⟨?_, ?_, ?_, ?_, ?_⟩
  · intro store id
    unfold readInit
    cases mapGet store id <;> rfl
  · intro store
    exact List.length_map store _
  · intro store id input wf s h hd
    unfold writeStep
    rw [h]
    simp only [hd]
    cases wf <;> rfl
  · intro store id input wf s h hd
    unfold writeStep
    rw [h]
    simp [hd]
  · intro store id s h
    unfold killProcess
    rw [h]

/-- Witness: `read` and a live-session `write` leave a concrete store
intact; `write` on a dead session and `kill` each delete the entry. -/
theorem c3_removal_paths_witness :
    (readInit [("l", liveSess)] "l").1 = [("l", liveSess)] ∧
    (writeStep [("l", liveSess)] "l" "go" none).1 = [("l", liveSess)] ∧
    (writeStep [("x", deadSess)] "x" "go" none).1 = mapDelete [("x", deadSess)] "x" ∧
    (killProcess [("l", liveSess)] "l").1 = mapDelete [("l", liveSess)] "l" :=
  ⟨c3_removal_paths.1 [("l", liveSess)] "l",
   c3_removal_paths.2.2.1 [("l", liveSess)] "l" "go" none liveSess (by decide) (by decide),
   c3_removal_paths.2.2.2.1 [("x", deadSess)] "x" "go" none deadSess (by decide) (by decide),
   c3_removal_paths.2.2.2.2 [("l", liveSess)] "l" liveSess (by decide)⟩

/-! ### Claim C8 -/

/-- C8 (counterexample): on an unknown session id, `write`, `read` and
`kill` return a structured error whose code is the string
`"SESSION_NOT_FOUND"`, not `"NOT_FOUND"` as claimed. -/
theorem c8_code_is_session_not_found :
    (writeStep [] "x" "hi" none).2 =
      .error (createError "SESSION_NOT_FOUND" "Session x not found" none) ∧
    (readInit [] "x").2 =
      .error (createError "SESSION_NOT_FOUND" "Session x not found" none) ∧
    (killProcess [] "x").2 =
      .error (createError "SESSION_NOT_FOUND" "Session x not found" none) ∧
    "SESSION_NOT_FOUND" ≠ "NOT_FOUND" :=
  ⟨rfl, rfl, rfl, by decide⟩

/-- C8 (amended): for every session id absent from the Store, `write`,
`read` and `kill` each fail with a structured error whose code is
`SESSION_NOT_FOUND` (the spec's `NOT_FOUND` condition under the code's
actual string), and the Store is left unchanged. -/
theorem c8_unknown_id_errors (store : Store) (id : String)
    (h : mapGet store id = none) :
    (∀ input wf, writeStep store id input wf =
      (store, .error (createError "SESSION_NOT_FOUND"
        ("Session " ++ id ++ " not found") none))) ∧
    readInit store id =
      (store, .error (createError "SESSION_NOT_FOUND"
        ("Session " ++ id ++ " not found") none)) ∧
    killProcess store id =
      (store, .error (createError "SESSION_NOT_FOUND"
        ("Session " ++ id ++ " not found") none)) := by
  refine ⟨fun input wf => ?_, ?_, ?_⟩
  · unfold writeStep; rw [h]
  · unfold readInit; rw [h]
  · unfold killProcess; rw [h]

/-- Witness: the three operations on an empty store. -/
theorem c8_unknown_id_errors_witness :
    writeStep [] "x" "hi" none =
      ([], .error (createError "SESSION_NOT_FOUND" ("Session " ++ "x" ++ " not found") none)) ∧
    readInit [] "x" =
      ([], .error (createError "SESSION_NOT_FOUND" ("Session " ++ "x" ++ " not found") none)) ∧
    killProcess [] "x" =
      ([], .error (createError "SESSION_NOT_FOUND" ("Session " ++ "x" ++ " not found") none)) :=
  ⟨(c8_unknown_id_errors [] "x" rfl).1 "hi" none,
   (c8_unknown_id_errors [] "x" rfl).2.1,
   (c8_unknown_id_errors [] "x" rfl).2.2⟩

/-! ### Claim C6 -/

/-- C6 (code bug): `kill` on a live session takes the graceful branch
and sends SIGTERM; a successful `kill()` sets the handle's `killed`
flag (Node semantics), so when the 1000 ms escalation timer fires its
check `!session.process.killed` is false for every possible exit status
at that moment — in particular when the process is still running
(`exitCode = none`, a process that ignored SIGTERM) — and SIGKILL is
never sent. This contradicts the code's own comment
"Force kill after 1 second" and the claimed escalation. -/
theorem c6_escalation_never_fires :
    killGraceBranch liveSess = true ∧
    (procSendSignal liveSess.process).killed = true ∧
    (∀ ec : Option Int, killEscalates ⟨true, ec⟩ = false) ∧
    killEscalates (procSendSignal liveSess.process) = false :=
  ⟨rfl, rfl, fun _ => rfl, rfl⟩

/-! ### Claim C7 -/

/-- C7 (counterexample): a `start` whose spawn fails resolves
`PROCESS_ERROR` through the `error` handler, but the 500 ms settle
timeout is not cancelled: when it fires, the never-spawned process's
handle still shows `killed = false` and `exitCode = null`, so the dead
check passes and `sessions.set` registers the session — the failed
start leaves an entry behind in the Store. -/
theorem c7_failed_start_leaves_entry :
    run mstate0 c7Trace =
      MState.mk [("aabbccdd", newSession "cmd" "wd")] [] [(0, .processError)] ∧
    (mapGet (run mstate0 c7Trace).store "aabbccdd").isSome = true := by decide

/-- C7 (amended): when the settle check observes the process dead
(`killed || exitCode !== null`), `start` fails with `PROCESS_DIED`
carrying the captured output and registers nothing — the Store is
untouched; but a `start` that failed with `PROCESS_ERROR` via the
`error` event, whose process handle never recorded an exit, is still
registered by the settle step, leaving an entry behind. -/
theorem c7_settle_registration (st : MState) (rid : Nat) (p : PendingStart)
    (hg : getPending st.pending rid = some p) :
    (procDead p.session.process = true →
      stepEv st (.startSettle rid) =
        MState.mk st.store (removePending st.pending rid)
          (st.completed ++
            [(rid, p.resolved.getD (.processDied (render p.session.output)))])) ∧
    (procDead p.session.process = false → p.resolved = some .processError →
      (stepEv st (.startSettle rid)).store = mapSet st.store p.sid p.session ∧
      (stepEv st (.startSettle rid)).completed =
        st.completed ++ [(rid, .processError)]) := by
  constructor
  · intro hd
    rw [settle_reduce st rid p hg, if_pos hd]
  · intro hd hres
    rw [settle_reduce st rid p hg, if_neg (by simp [hd]), hres]
    exact ⟨rfl, rfl⟩

/-- Witness: a dead in-flight start resolves `PROCESS_DIED` and leaves
the store empty; an error-resolved live one registers its session. -/
theorem c7_settle_registration_witness :
    stepEv (MState.mk [] [(0, ⟨"aa", deadSess, none⟩)] []) (.startSettle 0) =
      MState.mk [] [] [(0, .processDied "bye")] ∧
    (stepEv (MState.mk [] [(1, ⟨"bb", newSession "c" "w", some .processError⟩)] [])
        (.startSettle 1)).store = [("bb", newSession "c" "w")] :=
  ⟨((c7_settle_registration (MState.mk [] [(0, ⟨"aa", deadSess, none⟩)] []) 0
      ⟨"aa", deadSess, none⟩ (by decide)).1 (by decide)).trans (by decide),
   (((c7_settle_registration (MState.mk [] [(1, ⟨"bb", newSession "c" "w", some .processError⟩)] [])
      1 ⟨"bb", newSession "c" "w", some .processError⟩ (by decide)).2
        (by decide) rfl).1).trans (by decide)⟩

/-! ### Claim C9 -/

/-- C9 (counterexample): `generateSessionId` draws the id from the
random bytes alone — here the four bytes `de ad be ef` yield
`"deadbeef"`, an id already registered. The successful `start` then
registers via `sessions.set`, which replaces the existing registrant's
entry: after the run the store still has one entry under `"deadbeef"`,
but it is the new session; `sessA` is gone. -/
theorem c9_collision_replaces_entry :
    generateSessionId [222, 173, 190, 239] = "deadbeef" ∧
    mapGet [("deadbeef", sessA)] "deadbeef" = some sessA ∧
    run (MState.mk [("deadbeef", sessA)] [] []) c9Trace =
      MState.mk [("deadbeef", newSession "cmdB" "wdB")] [] [(5, .ok "deadbeef" "")] ∧
    newSession "cmdB" "wdB" ≠ sessA := by decide

/-- C9 (amended): a successful `start` registers its session under the
randomly drawn id with no freshness check: when the drawn id is absent
from the Store, registration appends a new entry and every existing
registrant is preserved; when it collides with a registered id, the
existing registrant's entry is replaced in place (the store size does
not grow). -/
theorem c9_registration_fresh_or_replace (st : MState) (rid : Nat)
    (p : PendingStart) (hg : getPending st.pending rid = some p)
    (halive : procDead p.session.process = false) :
    (mapGet st.store p.sid = none →
      (stepEv st (.startSettle rid)).store = st.store ++ [(p.sid, p.session)]) ∧
    (∀ s, mapGet st.store p.sid = some s →
      ((stepEv st (.startSettle rid)).store).length = st.store.length) := by
  have hstore : (stepEv st (.startSettle rid)).store = mapSet st.store p.sid p.session := by
    rw [settle_reduce st rid p hg, if_neg (by simp [halive])]
  constructor
  · intro habs
    rw [hstore]
    exact mapSet_of_absent st.store p.sid p.session habs
  · intro s hpres
    rw [hstore]
    exact mapSet_of_present st.store p.sid p.session s hpres

/-- Witness: a fresh id is appended next to an existing registrant; a
colliding id keeps the store size at one. -/
theorem c9_registration_fresh_or_replace_witness :
    (stepEv (MState.mk [("deadbeef", sessA)] [(1, ⟨"bb", newSession "c" "w", none⟩)] [])
        (.startSettle 1)).store = [("deadbeef", sessA)] ++ [("bb", newSession "c" "w")] ∧
    ((stepEv (MState.mk [("deadbeef", sessA)] [(5, ⟨"deadbeef", newSession "cmdB" "wdB", none⟩)] [])
        (.startSettle 5)).store).length = [("deadbeef", sessA)].length :=
  ⟨(c9_registration_fresh_or_replace
      (MState.mk [("deadbeef", sessA)] [(1, ⟨"bb", newSession "c" "w", none⟩)] []) 1
      ⟨"bb", newSession "c" "w", none⟩ (by decide) (by decide)).1 (by decide),
   (c9_registration_fresh_or_replace
      (MState.mk [("deadbeef", sessA)] [(5, ⟨"deadbeef", newSession "cmdB" "wdB", none⟩)] []) 5
      ⟨"deadbeef", newSession "cmdB" "wdB", none⟩ (by decide) (by decide)).2
      sessA (by decide)⟩

/-! ### Claim C4 -/

/-- C4 (counterexample): the buffer is at the 1000-line cap when `read`
records its mark (tick 0); one line `"new"` is appended during the
first poll interval, evicting the oldest line. Because eviction keeps
the buffer length at the mark, `slice(mark)` stays empty, so the wake
condition "new content since the mark" never fires: with
`timeout_ms = 200` the loop runs out the full timeout and returns an
empty delta — even though content was appended since the mark — rather
than returning the appended content. -/
theorem c4_read_misses_output_at_cap :
    (sigmaC4 0).output.length = MAX_OUTPUT_LINES ∧
    (sigmaC4 1).output = List.replicate 999 "old" ++ ["new"] ∧
    "new" ∉ (sigmaC4 0).output ∧
    readFromProcess sigmaC4 200 = some (2, ⟨"", true⟩) := by
  set_option maxRecDepth 1000000 in decide

/-- C4 (amended): for every session timeline and timeout, `read`
records the mark (buffer length at tick 0) and resolves at the first
100 ms poll tick at which the buffer slice past the mark is nonempty,
the liveness check fails, or the elapsed time reaches `timeout_ms`; it
returns the buffer slice past the mark rendered at that tick (equal to
the content appended since the mark whenever the buffer grew purely by
appending, i.e. no eviction occurred) together with the running state
recomputed at that tick, and it never waits beyond `timeout_ms` plus
one poll interval. -/
theorem c4_read_poll_contract (σ : Nat → Session) (timeoutMs : Nat) :
    ∃ j, readFromProcess σ timeoutMs =
        some (j, ⟨render (sliceFrom (σ j).output ((σ 0).output.length)),
                  isRunningProc (σ j).process⟩) ∧
      readStopCond σ ((σ 0).output.length) timeoutMs j = true ∧
      (∀ i, i < j → readStopCond σ ((σ 0).output.length) timeoutMs i = false) ∧
      100 * j ≤ timeoutMs + 100 ∧
      (∀ app, (σ j).output = (σ 0).output ++ app →
        render (sliceFrom (σ j).output ((σ 0).output.length)) = render app) := by
  obtain ⟨j, hj0, hj1, hj2, hj3⟩ :=
    readPoll_resolves σ ((σ 0).output.length) timeoutMs (timeoutMs / 100 + 1) 0 (by omega)
  refine ⟨j, hj1, hj2, fun i hi => hj3 i (Nat.zero_le i) hi, ?_, ?_⟩
  · rcases Nat.eq_zero_or_pos j with hz | hpos
    · omega
    · have hfalse := hj3 (j - 1) (Nat.zero_le _) (by omega)
      unfold readStopCond at hfalse
      rcases Bool.or_eq_false_iff.mp hfalse with ⟨_, h2⟩
      have := of_decide_eq_false h2
      omega
  · intro app happ
    rw [happ]
    unfold sliceFrom
    rw [List.drop_left]

/-! ### Claim C10 -/

/-- C10: at the dispatch layer, an empty-string (or absent) `command`
for `start`, and an empty-string (or absent) `session_id` for `write`,
`read` and `kill`, are rejected with `INVALID_PARAMS` before any Store
interaction (the dispatcher takes no store at all, so an empty session
id can never reach the not-found path); `write` accepts an
empty-string `input` — only an absent `input` is `INVALID_PARAMS` —
and proceeds to write it to the process's stdin (on a live session the
write request carries the empty string). -/
theorem c10_dispatch_validation :
    (∀ p, p.action = "start" → falsyS p.command = true →
      processInteractive p =
        .err (createError "INVALID_PARAMS" "Command required for start action" none)) ∧
    (∀ p a, (a = "write" ∨ a = "read" ∨ a = "kill") → p.action = a →
      falsyS p.session_id = true →
      processInteractive p =
        .err (createError "INVALID_PARAMS" ("session_id required for " ++ a ++ " action") none)) ∧
    (∀ p s, p.action = "write" → p.session_id = some s → (s == "") = false →
      p.input = some "" → processInteractive p = .doWrite s "") ∧
    (∀ store id s, mapGet store id = some s → procDead s.process = false →
      writeStep store id "" none = (store, .ok (s.output.length, ""))) := by
  refine ⟨?_, ?_, ?_, ?_⟩
  · intro p ha hc
    unfold processInteractive
    rw [ha, hc]
    rfl
  · intro p a hA ha hs
    rcases hA with h | h | h <;>
      (subst h; unfold processInteractive; rw [ha, hs]; rfl)
  · intro p s ha hs hne hi
    unfold processInteractive
    rw [ha, hs, hi]
    simp [falsyS, hne]
  · intro store id s h hd
    unfold writeStep
    rw [h]
    simp [hd]

/-- Witness: concrete dispatches — empty command, empty session ids,
then a `write` of the empty string reaching a live session's stdin. -/
theorem c10_dispatch_validation_witness :
    processInteractive { action := "start", command := some "" } =
      .err (createError "INVALID_PARAMS" "Command required for start action" none) ∧
    processInteractive { action := "read", session_id := some "" } =
      .err (createError "INVALID_PARAMS" ("session_id required for " ++ "read" ++ " action") none) ∧
    processInteractive { action := "write", session_id := some "l", input := some "" } =
      .doWrite "l" "" ∧
    writeStep [("l", liveSess)] "l" "" none = ([("l", liveSess)], .ok (1, "")) :=
  ⟨c10_dispatch_validation.1 { action := "start", command := some "" } rfl rfl,
   c10_dispatch_validation.2.1 { action := "read", session_id := some "" } "read"
     (Or.inr (Or.inl rfl)) rfl rfl,
   c10_dispatch_validation.2.2.1 { action := "write", session_id := some "l", input := some "" }
     "l" rfl rfl (by decide) rfl,
   (c10_dispatch_validation.2.2.2 [("l", liveSess)] "l" liveSess (by decide) (by decide)).trans
     rfl⟩

/-- Witness: the read contract instantiated on a concrete timeline and
timeout. -/
theorem c4_read_poll_contract_witness :
    ∃ j, readFromProcess sigmaC4 200 =
        some (j, ⟨render (sliceFrom (sigmaC4 j).output ((sigmaC4 0).output.length)),
                  isRunningProc (sigmaC4 j).process⟩) ∧
      readStopCond sigmaC4 ((sigmaC4 0).output.length) 200 j = true ∧
      (∀ i, i < j → readStopCond sigmaC4 ((sigmaC4 0).output.length) 200 i = false) ∧
      100 * j ≤ 200 + 100 ∧
      (∀ app, (sigmaC4 j).output = (sigmaC4 0).output ++ app →
        render (sliceFrom (sigmaC4 j).output ((sigmaC4 0).output.length)) = render app) :=
  c4_read_poll_contract sigmaC4 200
